import Mathlib

/-!
Verification of the merge / configuration-resolution helpers in
`anymail/utils.py` (functions `combine`, `last`, `getfirst`,
`get_anymail_setting`, `get_content_disposition`, class `Attachment`).

Python objects are modelled by the inductive `PyObj`; a Python heap is a
`Store` (list of objects, indices are references).  `combine` is embedded as
a store transformer because the source uses `value.copy()` /
`result.update(value)` / `result + value`, whose aliasing and in-place
mutation matter for the frame claims.  Payloads of dicts and lists are
modelled atomically (as `Int`); merging touches only the key structure, so
nothing in the claims depends on the payload type.  The embedding follows
Python 3 attribute semantics: `dict` and `list` have `copy`, `int` and
`str` do not (so `value.copy()` raises `AttributeError` and the value is
aliased); only `dict` has `update`; `+` concatenates lists and strings and
adds integers; a `+` or `update` between incompatible operand kinds raises
an uncaught `TypeError`, modelled as `Except.error`.
-/

namespace Anymail

/-- A Python runtime value: `None`, the module-level `UNSET` sentinel,
an integer, a string, a dict (association list, insertion ordered) or a
list.  Dict values and list elements are modelled atomically as `Int`. -/
inductive PyObj where
  | pynone
  | unset
  | int (n : Int)
  | str (s : String)
  | dict (entries : List (String × Int))
  | list (elems : List Int)
deriving DecidableEq

/-- A reference into the Python heap. -/
abbrev Ref := Nat

/-- The Python heap: a cell per allocated object. -/
abbrev Store := List PyObj

/-- Dereference: out-of-range references default to `None` (they never occur
for real arguments; theorems carry range hypotheses where it matters). -/
def storeGet (s : Store) (r : Ref) : PyObj :=
  (s[r]?).getD .pynone

/-- `d[k] = v` on an insertion-ordered dict: replace in place if the key is
present, else append (CPython dict assignment semantics). -/
def dictSet (entries : List (String × Int)) (k : String) (v : Int) :
    List (String × Int) :=
  if entries.any (fun p => p.1 == k) then
    entries.map (fun p => if p.1 == k then (p.1, v) else p)
  else entries ++ [(k, v)]

/-- `a.update(b)` on dicts: each key of `b`, in order, is assigned into `a`
(later keys overwrite earlier ones). -/
def dictUpdate (a b : List (String × Int)) : List (String × Int) :=
  b.foldl (fun acc kv => dictSet acc kv.1 kv.2) a

/-- One iteration of the loop body of `combine` (utils.py lines 33-47) on
state (heap, accumulator); the accumulator `none` models `result is UNSET`.
`None` resets the accumulator; `UNSET` is skipped; otherwise the value is
copied / aliased into a fresh accumulator, or merged into the existing one
(`dict.update` mutates in place; list/str/int `+` allocates). -/
def combineStep (st : Store × Option Ref) (r : Ref) :
    Except Unit (Store × Option Ref) :=
  match storeGet st.1 r with
  | .pynone => .ok (st.1, none)
  | .unset => .ok st
  | v =>
    match st.2 with
    | none =>
      match v with
      | .dict d => .ok (st.1 ++ [.dict d], some st.1.length)
      | .list l => .ok (st.1 ++ [.list l], some st.1.length)
      | _ => .ok (st.1, some r)
    | some ra =>
      match storeGet st.1 ra, v with
      | .dict d, .dict b => .ok (st.1.set ra (.dict (dictUpdate d b)), some ra)
      | .list l, .list m => .ok (st.1 ++ [.list (l ++ m)], some st.1.length)
      | .int a, .int b => .ok (st.1 ++ [.int (a + b)], some st.1.length)
      | .str a, .str b => .ok (st.1 ++ [.str (a ++ b)], some st.1.length)
      | _, _ => .error ()

/-- The loop of `combine`; an uncaught merge error aborts with the heap as
it stood before the failing step (the failing operations mutate nothing). -/
def combineGo : Store × Option Ref → List Ref → Store × Except Unit (Option Ref)
  | st, [] => (st.1, .ok st.2)
  | st, r :: rest =>
    match combineStep st r with
    | .ok st2 => combineGo st2 rest
    | .error e => (st.1, .error e)

/-- `combine(*args)` (utils.py lines 18-48): returns the final heap and the
result, `none` standing for the `UNSET` sentinel. -/
def combine (s : Store) (args : List Ref) : Store × Except Unit (Option Ref) :=
  combineGo (s, none) args

/-- The value `combine` hands back to its caller, with the result reference
resolved in the final heap. -/
def combineValue (s : Store) (args : List Ref) : Except Unit (Option PyObj) :=
  match combine s args with
  | (s2, .ok (some r)) => .ok (some (storeGet s2 r))
  | (_, .ok none) => .ok none
  | (_, .error e) => .error e

/-- The loop of `last` over the reversed argument list (utils.py lines
64-70): `None` returns `UNSET`, `UNSET` is skipped, anything else is
returned. -/
def lastAux (s : Store) : List Ref → Option Ref
  | [] => none
  | r :: rest =>
    match storeGet s r with
    | .pynone => none
    | .unset => lastAux s rest
    | _ => some r

/-- `last(*args)` (utils.py lines 51-70); `none` stands for `UNSET`. -/
def last (s : Store) (args : List Ref) : Option Ref :=
  lastAux s args.reverse

/-- Lookup in an association list, the embedding of `mapping[key]`
(`none` = `KeyError`). -/
def assocLookup {α : Type} (l : List (String × α)) (k : String) : Option α :=
  (l.find? (fun p => p.1 == k)).map (fun p => p.2)

/-- Removal of a key, the mutation `mapping.pop(key)` performs. -/
def assocRemove {α : Type} (l : List (String × α)) (k : String) :
    List (String × α) :=
  l.eraseP (fun p => p.1 == k)

/-- The key loop of `getfirst` (utils.py lines 85-89): value of the first
key present in `dct`. -/
def getfirstGo (dct : List (String × PyObj)) : List String → Option PyObj
  | [] => none
  | k :: rest =>
    match assocLookup dct k with
    | some v => some v
    | none => getfirstGo dct rest

/-- `getfirst(dct, keys, default=UNSET)` (utils.py lines 73-93).
`default = none` models the `UNSET` default; `Except.error` models the
`KeyError` raised when no key is found and no default was given, carrying
the exception message. -/
def getfirst (dct : List (String × PyObj)) (keys : List String)
    (default : Option PyObj) : Except String PyObj :=
  match getfirstGo dct keys with
  | some v => .ok v
  | none =>
    match default with
    | some d => .ok d
    | none => .error ("None of " ++ String.intercalate ", " keys ++ " found in dict")

/-- The Django settings object as `get_anymail_setting` sees it:
`settings.ANYMAIL` (absent attribute modelled as `none`) and the flat
settings attributes. -/
structure DjangoSettings where
  anymail : Option (List (String × PyObj))
  attrs : List (String × PyObj)
deriving DecidableEq

/-- Outcome of setting resolution: a value, or an
`AnymailConfigurationError` with its message. -/
inductive SettingResult where
  | ok (v : PyObj)
  | configError (msg : String)
deriving DecidableEq

/-- Python `str.upper()` on the character sequence (setting and header
names are ASCII, for which per-character upcasing is exact). -/
def pyUpper (s : String) : String :=
  String.mk (s.data.map Char.toUpper)

/-- Python `str.lower()` on the character sequence. -/
def pyLower (s : String) : String :=
  String.mk (s.data.map Char.toLower)

/-- Python `str.strip()`: whitespace removed from both ends. -/
def pyStrip (s : String) : String :=
  String.mk
    (((s.data.dropWhile Char.isWhitespace).reverse.dropWhile
        Char.isWhitespace).reverse)

/-- The setting name tried, `"<ESP_NAME>_<NAME>"` uppercased, or just
`"<NAME>"` uppercased when `esp_name` is `None` (utils.py lines 214-217). -/
def settingName (name : String) (esp_name : Option String) : String :=
  match esp_name with
  | some e => pyUpper e ++ "_" ++ pyUpper name
  | none => pyUpper name

/-- The `AnymailConfigurationError` message built at utils.py lines
232-235. -/
def configMessage (setting : String) (allow_bare : Bool) : String :=
  "You must set ANYMAIL_" ++ setting ++ " or ANYMAIL = \x7b\x27" ++ setting ++
    "\x27: ...\x7d" ++ (if allow_bare then " or " ++ setting else "") ++
    " in your Django settings"

/-- Steps 2-6 of `get_anymail_setting` (utils.py lines 214-238): the
namespaced `settings.ANYMAIL[setting]` entry, then the flat
`ANYMAIL_<SETTING>` attribute, then (if `allow_bare`) the bare `<SETTING>`
attribute, then the default, else a configuration error. -/
def resolveSettings (stg : DjangoSettings) (name : String)
    (default : Option PyObj) (esp_name : Option String) (allow_bare : Bool) :
    SettingResult :=
  let setting := settingName name esp_name
  let anymail_setting := "ANYMAIL_" ++ setting
  match stg.anymail.bind (fun m => assocLookup m setting) with
  | some v => .ok v
  | none =>
    match assocLookup stg.attrs anymail_setting with
    | some v => .ok v
    | none =>
      match (if allow_bare then assocLookup stg.attrs setting else none) with
      | some v => .ok v
      | none =>
        match default with
        | some d => .ok d
        | none => .configError (configMessage setting allow_bare)

/-- `kwargs.pop(name)`: `none` when the pop raises (`AttributeError` for a
`None` kwargs, `KeyError` for a missing key — both leave kwargs untouched);
otherwise the popped value together with the mutated kwargs. -/
def popKwargs (kwargs : Option (List (String × PyObj))) (name : String) :
    Option (PyObj × List (String × PyObj)) :=
  match kwargs with
  | none => none
  | some kw =>
    match assocLookup kw name with
    | none => none
    | some v => some (v, assocRemove kw name)

/-- `get_anymail_setting(name, default, esp_name, kwargs, allow_bare)`
(utils.py lines 184-238).  `default = none` models the `UNSET` default.
Returns the outcome together with the caller's kwargs mapping after the
call (the key is popped whenever the pop succeeds; for `username` /
`password` a popped `None` value is then ignored and resolution falls
through to the settings sources). -/
def get_anymail_setting (stg : DjangoSettings) (name : String)
    (default : Option PyObj) (esp_name : Option String)
    (kwargs : Option (List (String × PyObj))) (allow_bare : Bool) :
    SettingResult × Option (List (String × PyObj)) :=
  match popKwargs kwargs name with
  | some (v, kw2) =>
    if name = "username" ∨ name = "password" then
      if v = .pynone then
        (resolveSettings stg name default esp_name allow_bare, some kw2)
      else (.ok v, some kw2)
    else (.ok v, some kw2)
  | none => (resolveSettings stg name default esp_name allow_bare, kwargs)

/-- Left-to-right non-overlapping replacement of the two-character pattern
`a b` by the single character `c`, the behaviour of Python `str.replace`
for the patterns `unquote` uses. -/
def replace2 (a b c : Char) : List Char → List Char
  | [] => []
  | [x] => [x]
  | x :: y :: rest =>
    if x = a ∧ y = b then c :: replace2 a b c rest
    else x :: replace2 a b c (y :: rest)

/-- `email.utils.unquote` on the character sequence of the string: strips a
surrounding `"..."` pair (unescaping `\x5c\x5c` and `\x5c"`) or a
surrounding `<...>` pair, when the string has length above one. -/
def unquoteChars (cs : List Char) : List Char :=
  if 1 < cs.length then
    if cs.head? = some (Char.ofNat 34) ∧ cs.getLast? = some (Char.ofNat 34) then
      replace2 (Char.ofNat 92) (Char.ofNat 34) (Char.ofNat 34)
        (replace2 (Char.ofNat 92) (Char.ofNat 92) (Char.ofNat 92)
          ((cs.drop 1).dropLast))
    else if cs.head? = some '<' ∧ cs.getLast? = some '>' then
      (cs.drop 1).dropLast
    else cs
  else cs

/-- `email.utils.unquote` (imported by utils.py and applied to the
Content-ID header). -/
def unquote (s : String) : String :=
  String.mk (unquoteChars s.data)

/-- A MIME part as `Attachment.__init__` reads it: filename, decoded
payload, declared content type, and the raw headers (header-name matching
is case-insensitive, as in `email.message`). -/
structure MimePart where
  filename : Option String
  payload : List Nat
  contentType : String
  headers : List (String × String)
deriving DecidableEq

/-- `mimeobj.get(name)` / `mimeobj[name]`: first header whose name matches
case-insensitively, or `None`. -/
def headerGet (headers : List (String × String)) (name : String) :
    Option String :=
  (headers.find? (fun h => pyLower h.1 == pyLower name)).map (fun h => h.2)

/-- `get_content_disposition(mimeobj)` (utils.py lines 172-181): the
lowercased disposition token before any `;` parameter, or `None` when the
header is absent. -/
def get_content_disposition (part : MimePart) : Option String :=
  match headerGet part.headers "content-disposition" with
  | none => none
  | some value =>
      some (pyLower (pyStrip (String.mk (value.data.takeWhile (fun c => c ≠ ';')))))

/-- Attachment content: a byte string, or text still to be encoded. -/
inductive ContentData where
  | bytes (bs : List Nat)
  | text (s : String)
deriving DecidableEq

/-- The two shapes `Attachment.__init__` accepts: a MIME part, or a
`(filename, content, mimetype)` triple. -/
inductive AttachmentInput where
  | mimePart (part : MimePart)
  | triple (name : Option String) (content : ContentData) (mimetype : Option String)
deriving DecidableEq

/-- `django.core.mail.message.DEFAULT_ATTACHMENT_MIME_TYPE`. -/
def DEFAULT_ATTACHMENT_MIME_TYPE : String := "application/octet-stream"

/-- The normalized attachment produced by `Attachment.__init__`
(utils.py lines 122-161). -/
structure Attachment where
  name : Option String
  content : ContentData
  mimetype : String
  inline : Bool
  content_id : Option String
  cid : String
  encoding : String
deriving DecidableEq

/-- The mimetype fixup at utils.py lines 158-161: guess a missing mimetype
from the filename (`guess` abstracts `mimetypes.guess_type`), then fall
back to the fixed default. -/
def resolveMimetype (guess : String → Option String)
    (mimetype : Option String) (name : Option String) : String :=
  let m1 := match mimetype, name with
    | none, some n => guess n
    | m, _ => m
  match m1 with
  | some m => m
  | none => DEFAULT_ATTACHMENT_MIME_TYPE

/-- `Attachment.__init__(attachment, encoding)` (utils.py lines 134-161):
a MIME part contributes its filename, decoded payload and content type,
and — when its content-disposition token is `inline` — sets the inline
flag, the raw Content-ID (brackets included) and the unquoted cid; a
triple is unpacked directly with the inline fields at their defaults. -/
def Attachment.make (guess : String → Option String) (encoding : String) :
    AttachmentInput → Attachment
  | .mimePart part =>
    let nm := part.filename
    let ct := ContentData.bytes part.payload
    let mt := resolveMimetype guess (some part.contentType) nm
    if get_content_disposition part = some "inline" then
      match headerGet part.headers "Content-ID" with
      | some c => ⟨nm, ct, mt, true, some c, unquote c, encoding⟩
      | none => ⟨nm, ct, mt, true, none, "", encoding⟩
    else ⟨nm, ct, mt, false, none, "", encoding⟩
  | .triple nm ct mto =>
    ⟨nm, ct, resolveMimetype guess mto nm, false, none, "", encoding⟩

/-- Scalar objects: the argument kinds the `last`-vs-`combine` comparison
is about (no dicts or lists, integers as the representative scalars). -/
def isScalarObj : PyObj → Bool
  | .pynone => true
  | .unset => true
  | .int _ => true
  | _ => false

/-- The value plane of one `combine` step on scalar contents, with the
accumulator as `Option Int` (`none` = `UNSET`). -/
def scombineStep (acc : Option Int) (v : PyObj) : Option Int :=
  match v with
  | .pynone => none
  | .unset => acc
  | .int n =>
    match acc with
    | none => some n
    | some m => some (m + n)
  | _ => acc

/-- The value plane of `combine` on scalar contents. -/
def scombine (vs : List PyObj) : Option Int :=
  vs.foldl scombineStep none

/-- The value plane of the `last` loop on a (reversed) content list. -/
def slastAux : List PyObj → Option PyObj
  | [] => none
  | v :: rest =>
    match v with
    | .pynone => none
    | .unset => slastAux rest
    | _ => some v

/-- The value plane of `last` on a content list. -/
def slast (vs : List PyObj) : Option PyObj :=
  slastAux vs.reverse

/-- A content list consisting of `UNSET` markers only. -/
def allUnsetL (vs : List PyObj) : Prop :=
  ∀ v ∈ vs, v = PyObj.unset

/-- A content list that is all `UNSET` except for at most one integer. -/
def oneIntSeg (vs : List PyObj) : Prop :=
  allUnsetL vs ∨
    ∃ u1 k u2, vs = u1 ++ PyObj.int k :: u2 ∧ allUnsetL u1 ∧ allUnsetL u2

/-- Scalar argument contents on which `combine` and `last` agree: at most
one real (non-`UNSET`, non-`None`) value follows the last `None` (or
appears at all, when there is no `None`). -/
def scalarAgree (vs : List PyObj) : Prop :=
  oneIntSeg vs ∨ ∃ p q, vs = p ++ PyObj.pynone :: q ∧ oneIntSeg q

/-- Heap `s2` preserves every cell of heap `s0` (and is at least as
large). -/
def Preserves (s0 s2 : Store) : Prop :=
  s0.length ≤ s2.length ∧ ∀ i, i < s0.length → s2[i]? = s0[i]?

/-- The `combine` accumulator never aliases a pre-existing dict cell (the
only cells `dict.update` mutates in place). -/
def AccOk (s0 : Store) (s2 : Store) (acc : Option Ref) : Prop :=
  ∀ ra d, acc = some ra → storeGet s2 ra = PyObj.dict d → s0.length ≤ ra

/-- Relating the `combine` accumulator reference to its scalar value. -/
def AccRel (s2 : Store) (acc : Option Ref) (av : Option Int) : Prop :=
  match acc, av with
  | none, none => True
  | some ra, some m => storeGet s2 ra = PyObj.int m
  | _, _ => False

lemma lt_length_of_storeGet {s : Store} {r : Ref} {v : PyObj}
    (h : storeGet s r = v) (hv : v ≠ PyObj.pynone) : r < s.length := by
  by_contra hge
  have hnone : s[r]? = none := List.getElem?_eq_none (Nat.le_of_not_lt hge)
  rw [storeGet, hnone] at h
  exact hv h.symm

lemma storeGet_append_left {s : Store} (t : Store) {r : Ref}
    (h : r < s.length) : storeGet (s ++ t) r = storeGet s r := by
  unfold storeGet
  rw [List.getElem?_append_left h]

lemma storeGet_concat_length (s : Store) (v : PyObj) :
    storeGet (s ++ [v]) s.length = v := by
  unfold storeGet
  rw [List.getElem?_concat_length]
  rfl

lemma set_concat_length (s : Store) (x y : PyObj) :
    (s ++ [x]).set s.length y = s ++ [y] := by
  induction s with
  | nil => rfl
  | cons a t ih =>
    simp only [List.cons_append, List.length_cons, List.set_cons_succ, ih]

/-- Claim C4: for mapping-like arguments, `combine(a, b)` returns a fresh
shallow copy of `a` updated with `b`'s keys (later keys overwrite), and
`combine(a, None, b)` returns a fresh shallow copy of `b`, the `None`
having erased everything merged before it.  Freshness shows in the result
reference pointing past every pre-existing heap cell. -/
theorem C4_combine_merges_mappings :
    (∀ (s : Store) (r1 r2 : Ref) (a b : List (String × Int)),
       storeGet s r1 = PyObj.dict a → storeGet s r2 = PyObj.dict b →
       combine s [r1, r2] =
         (s ++ [PyObj.dict (dictUpdate a b)], .ok (some s.length))) ∧
    (∀ (s : Store) (r1 rn r2 : Ref) (a b : List (String × Int)),
       storeGet s r1 = PyObj.dict a → rn < s.length →
       storeGet s rn = PyObj.pynone → storeGet s r2 = PyObj.dict b →
       combine s [r1, rn, r2] =
         (s ++ [PyObj.dict a, PyObj.dict b], .ok (some (s.length + 1)))) := by
  constructor
  · intro s r1 r2 a b h1 h2
    have hr2 : r2 < s.length := lt_length_of_storeGet h2 (by simp)
    have e1 : combineStep (s, none) r1 = .ok (s ++ [PyObj.dict a], some s.length) := by
      simp [combineStep, h1]
    have hga : storeGet (s ++ [PyObj.dict a]) s.length = PyObj.dict a :=
      storeGet_concat_length s _
    have hgb : storeGet (s ++ [PyObj.dict a]) r2 = PyObj.dict b :=
      (storeGet_append_left _ hr2).trans h2
    have e2 : combineStep (s ++ [PyObj.dict a], some s.length) r2 =
        .ok ((s ++ [PyObj.dict a]).set s.length (PyObj.dict (dictUpdate a b)),
          some s.length) := by
      simp [combineStep, hga, hgb]
    simp [combine, combineGo, e1, e2, set_concat_length]
  · intro s r1 rn r2 a b h1 hrn hn h2
    have hr2 : r2 < s.length := lt_length_of_storeGet h2 (by simp)
    have e1 : combineStep (s, none) r1 = .ok (s ++ [PyObj.dict a], some s.length) := by
      simp [combineStep, h1]
    have e2 : combineStep (s ++ [PyObj.dict a], some s.length) rn =
        .ok (s ++ [PyObj.dict a], none) := by
      simp [combineStep, (storeGet_append_left _ hrn).trans hn]
    have e3 : combineStep (s ++ [PyObj.dict a], none) r2 =
        .ok ((s ++ [PyObj.dict a]) ++ [PyObj.dict b],
          some (s ++ [PyObj.dict a]).length) := by
      simp [combineStep, (storeGet_append_left _ hr2).trans h2]
    simp [combine, combineGo, e1, e2, e3]

/-- Witness for C4 at concrete dicts: its first part at
`combine({a:1, b:2}, {b:3, c:4})`, its second at
`combine({a:1}, None, {b:2})`. -/
theorem C4_combine_merges_mappings_witness :
    combine [PyObj.dict [("a", 1), ("b", 2)], PyObj.dict [("b", 3), ("c", 4)]]
        [0, 1] =
      ([PyObj.dict [("a", 1), ("b", 2)], PyObj.dict [("b", 3), ("c", 4)],
        PyObj.dict [("a", 1), ("b", 3), ("c", 4)]], .ok (some 2)) ∧
    combine [PyObj.dict [("a", 1)], PyObj.pynone, PyObj.dict [("b", 2)]]
        [0, 1, 2] =
      ([PyObj.dict [("a", 1)], PyObj.pynone, PyObj.dict [("b", 2)],
        PyObj.dict [("a", 1)], PyObj.dict [("b", 2)]], .ok (some 4)) := by
  constructor
  · have h := C4_combine_merges_mappings.1
      [PyObj.dict [("a", 1), ("b", 2)], PyObj.dict [("b", 3), ("c", 4)]]
      0 1 [("a", 1), ("b", 2)] [("b", 3), ("c", 4)] rfl rfl
    exact h.trans (by rfl)
  · have h := C4_combine_merges_mappings.2
      [PyObj.dict [("a", 1)], PyObj.pynone, PyObj.dict [("b", 2)]]
      0 1 2 [("a", 1)] [("b", 2)] rfl (by decide) rfl rfl
    exact h.trans (by rfl)

/-- Claim C5: for sequence arguments, `combine(a, b)` returns the
concatenation `a + b` (in a fresh cell), and `combine()` with no arguments
returns the `UNSET` sentinel. -/
theorem C5_combine_concats_sequences :
    (∀ (s : Store) (r1 r2 : Ref) (a b : List Int),
       storeGet s r1 = PyObj.list a → storeGet s r2 = PyObj.list b →
       combine s [r1, r2] =
         (s ++ [PyObj.list a, PyObj.list (a ++ b)], .ok (some (s.length + 1)))) ∧
    (∀ s : Store, combine s [] = (s, .ok none)) := by
  constructor
  · intro s r1 r2 a b h1 h2
    have hr2 : r2 < s.length := lt_length_of_storeGet h2 (by simp)
    have e1 : combineStep (s, none) r1 = .ok (s ++ [PyObj.list a], some s.length) := by
      simp [combineStep, h1]
    have hga : storeGet (s ++ [PyObj.list a]) s.length = PyObj.list a :=
      storeGet_concat_length s _
    have hgb : storeGet (s ++ [PyObj.list a]) r2 = PyObj.list b :=
      (storeGet_append_left _ hr2).trans h2
    have e2 : combineStep (s ++ [PyObj.list a], some s.length) r2 =
        .ok ((s ++ [PyObj.list a]) ++ [PyObj.list (a ++ b)],
          some (s ++ [PyObj.list a]).length) := by
      simp [combineStep, hga, hgb]
    simp [combine, combineGo, e1, e2]
  · intro s
    rfl

/-- Witness for C5 at `combine([1, 2], [3, 4])` and at `combine()`. -/
theorem C5_combine_concats_sequences_witness :
    combine [PyObj.list [1, 2], PyObj.list [3, 4]] [0, 1] =
      ([PyObj.list [1, 2], PyObj.list [3, 4], PyObj.list [1, 2],
        PyObj.list [1, 2, 3, 4]], .ok (some 3)) ∧
    combine [] [] = ([], .ok none) := by
  constructor
  · have h := C5_combine_concats_sequences.1
      [PyObj.list [1, 2], PyObj.list [3, 4]] 0 1 [1, 2] [3, 4] rfl rfl
    exact h.trans (by rfl)
  · exact C5_combine_concats_sequences.2 []

lemma lastAux_append_unset (s : Store) :
    ∀ (ys : List Ref), (∀ y ∈ ys, storeGet s y = PyObj.unset) →
      ∀ l, lastAux s (ys ++ l) = lastAux s l := by
  intro ys
  induction ys with
  | nil => intro _ l; rfl
  | cons y t ih =>
    intro hys l
    have hy : storeGet s y = PyObj.unset := hys y (by simp)
    simp only [List.cons_append, lastAux, hy]
    exact ih (fun z hz => hys z (by simp [hz])) l

lemma lastAux_all_unset (s : Store) :
    ∀ (ys : List Ref), (∀ y ∈ ys, storeGet s y = PyObj.unset) →
      lastAux s ys = none := by
  intro ys
  induction ys with
  | nil => intro _; rfl
  | cons y t ih =>
    intro hys
    have hy : storeGet s y = PyObj.unset := hys y (by simp)
    simp only [lastAux, hy]
    exact ih (fun z hz => hys z (by simp [hz]))

/-- Claim C6: `last` returns the rightmost argument that is not `UNSET`,
except that a rightmost-non-`UNSET` `None` (and an all-`UNSET` argument
list) yields `UNSET`. -/
theorem C6_last_returns_rightmost :
    (∀ (s : Store) (xs ys : List Ref) (r : Ref),
       (∀ y ∈ ys, storeGet s y = PyObj.unset) →
       storeGet s r ≠ PyObj.unset →
       last s (xs ++ r :: ys) =
         (if storeGet s r = PyObj.pynone then none else some r)) ∧
    (∀ (s : Store) (args : List Ref),
       (∀ y ∈ args, storeGet s y = PyObj.unset) → last s args = none) := by
  constructor
  · intro s xs ys r hys hr
    unfold last
    rw [show (xs ++ r :: ys).reverse = ys.reverse ++ r :: xs.reverse by simp]
    rw [lastAux_append_unset s ys.reverse
      (fun y hy => hys y (List.mem_reverse.mp hy))]
    cases hv : storeGet s r with
    | pynone => simp [lastAux, hv]
    | unset => exact absurd hv hr
    | int n => simp [lastAux, hv]
    | str a => simp [lastAux, hv]
    | dict d => simp [lastAux, hv]
    | list l => simp [lastAux, hv]
  · intro s args h
    unfold last
    exact lastAux_all_unset s args.reverse
      (fun y hy => h y (List.mem_reverse.mp hy))

/-- Witness for C6 at the spec's own examples:
`last(1, 2, UNSET, 3, UNSET)` is `3` and `last(1, None, UNSET)` is
`UNSET`. -/
theorem C6_last_returns_rightmost_witness :
    last [PyObj.int 1, PyObj.int 2, PyObj.unset, PyObj.int 3, PyObj.unset]
        [0, 1, 2, 3, 4] = some 3 ∧
    last [PyObj.int 1, PyObj.pynone, PyObj.unset] [0, 1, 2] = none := by
  constructor
  · have h := C6_last_returns_rightmost.1
      [PyObj.int 1, PyObj.int 2, PyObj.unset, PyObj.int 3, PyObj.unset]
      [0, 1] [4] 3 (by decide) (by decide)
    rw [if_neg (by decide)] at h
    exact h
  · have h := C6_last_returns_rightmost.1
      [PyObj.int 1, PyObj.pynone, PyObj.unset] [0] [2] 1 (by decide) (by decide)
    rw [if_pos (by decide)] at h
    exact h

lemma getfirstGo_append_none (dct : List (String × PyObj)) :
    ∀ (ks : List String), (∀ k ∈ ks, assocLookup dct k = none) →
      ∀ rest, getfirstGo dct (ks ++ rest) = getfirstGo dct rest := by
  intro ks
  induction ks with
  | nil => intro _ rest; rfl
  | cons k t ih =>
    intro hks rest
    have hk : assocLookup dct k = none := hks k (by simp)
    simp only [List.cons_append, getfirstGo, hk]
    exact ih (fun z hz => hks z (by simp [hz])) rest

lemma getfirstGo_all_none (dct : List (String × PyObj)) :
    ∀ (ks : List String), (∀ k ∈ ks, assocLookup dct k = none) →
      getfirstGo dct ks = none := by
  intro ks
  induction ks with
  | nil => intro _; rfl
  | cons k t ih =>
    intro hks
    have hk : assocLookup dct k = none := hks k (by simp)
    simp only [getfirstGo, hk]
    exact ih (fun z hz => hks z (by simp [hz]))

/-- Claim C8: `getfirst` returns the value of the first present key in
order; with no present key it returns the default when one was given
(`None` included, as-is), and otherwise raises a `KeyError` whose message
names all the attempted keys. -/
theorem C8_getfirst_first_key_or_default :
    (∀ (dct : List (String × PyObj)) (ks1 : List String) (k : String)
       (ks2 : List String) (default : Option PyObj) (v : PyObj),
       (∀ x ∈ ks1, assocLookup dct x = none) → assocLookup dct k = some v →
       getfirst dct (ks1 ++ k :: ks2) default = .ok v) ∧
    (∀ (dct : List (String × PyObj)) (keys : List String) (d : PyObj),
       (∀ k ∈ keys, assocLookup dct k = none) →
       getfirst dct keys (some d) = .ok d) ∧
    (∀ (dct : List (String × PyObj)) (keys : List String),
       (∀ k ∈ keys, assocLookup dct k = none) →
       getfirst dct keys none =
         .error ("None of " ++ String.intercalate ", " keys ++ " found in dict")) := by
  refine ⟨?_, ?_, ?_⟩
  · intro dct ks1 k ks2 default v h1 hk
    unfold getfirst
    rw [getfirstGo_append_none dct ks1 h1]
    simp only [getfirstGo, hk]
  · intro dct keys d h
    unfold getfirst
    rw [getfirstGo_all_none dct keys h]
  · intro dct keys h
    unfold getfirst
    rw [getfirstGo_all_none dct keys h]

/-- Witness for C8: `getfirst({a:1, b:2}, [c, a])` is `1`;
`getfirst({a:1}, [z, y])` without default raises the `KeyError` naming
`z, y`; with default `None` it returns `None`. -/
theorem C8_getfirst_first_key_or_default_witness :
    getfirst [("a", PyObj.int 1), ("b", PyObj.int 2)] ["c", "a"] none =
      .ok (PyObj.int 1) ∧
    getfirst [("a", PyObj.int 1)] ["z", "y"] none =
      .error "None of z, y found in dict" ∧
    getfirst [("a", PyObj.int 1)] ["z"] (some PyObj.pynone) =
      .ok PyObj.pynone := by
  refine ⟨?_, ?_, ?_⟩
  · exact C8_getfirst_first_key_or_default.1
      [("a", PyObj.int 1), ("b", PyObj.int 2)] ["c"] "a" [] none
      (PyObj.int 1) (by decide) rfl
  · have h := C8_getfirst_first_key_or_default.2.2
      [("a", PyObj.int 1)] ["z", "y"] (by decide)
    exact h.trans (by rfl)
  · exact C8_getfirst_first_key_or_default.2.1
      [("a", PyObj.int 1)] ["z"] PyObj.pynone (by decide)

/-- Claim C1: a kwargs entry (for names other than username/password,
whatever its value) wins over every settings source, is returned, and is
removed from kwargs; with no source and a default, the default is
returned; with no source and no default, a `ConfigurationError` is raised
with the exact message naming the tried setting names (the bare name as a
separate alternative only under `allow_bare`). -/
theorem C1_setting_resolution_precedence :
    (∀ (stg : DjangoSettings) (name : String) (default : Option PyObj)
       (esp_name : Option String) (kw : List (String × PyObj))
       (allow_bare : Bool) (v : PyObj),
       name ≠ "username" → name ≠ "password" →
       assocLookup kw name = some v →
       get_anymail_setting stg name default esp_name (some kw) allow_bare =
         (.ok v, some (assocRemove kw name))) ∧
    (∀ (stg : DjangoSettings) (name : String) (esp_name : Option String)
       (kwargs : Option (List (String × PyObj))) (allow_bare : Bool) (d : PyObj),
       popKwargs kwargs name = none →
       stg.anymail.bind (fun m => assocLookup m (settingName name esp_name)) = none →
       assocLookup stg.attrs ("ANYMAIL_" ++ settingName name esp_name) = none →
       (allow_bare = true → assocLookup stg.attrs (settingName name esp_name) = none) →
       get_anymail_setting stg name (some d) esp_name kwargs allow_bare =
         (.ok d, kwargs)) ∧
    (∀ (stg : DjangoSettings) (name : String) (esp_name : Option String)
       (kwargs : Option (List (String × PyObj))) (allow_bare : Bool),
       popKwargs kwargs name = none →
       stg.anymail.bind (fun m => assocLookup m (settingName name esp_name)) = none →
       assocLookup stg.attrs ("ANYMAIL_" ++ settingName name esp_name) = none →
       (allow_bare = true → assocLookup stg.attrs (settingName name esp_name) = none) →
       get_anymail_setting stg name none esp_name kwargs allow_bare =
         (.configError (configMessage (settingName name esp_name) allow_bare),
          kwargs)) := by
  refine ⟨?_, ?_, ?_⟩
  · intro stg name default esp_name kw allow_bare v h1 h2 hlk
    simp [get_anymail_setting, popKwargs, hlk, h1, h2]
  · intro stg name esp_name kwargs allow_bare d hpop hA hB hbare
    cases allow_bare with
    | true => simp [get_anymail_setting, hpop, resolveSettings, hA, hB, hbare rfl]
    | false => simp [get_anymail_setting, hpop, resolveSettings, hA, hB]
  · intro stg name esp_name kwargs allow_bare hpop hA hB hbare
    cases allow_bare with
    | true => simp [get_anymail_setting, hpop, resolveSettings, hA, hB, hbare rfl]
    | false => simp [get_anymail_setting, hpop, resolveSettings, hA, hB]

/-- Witness for C1: kwargs beats simultaneously-defined namespaced,
flat-prefixed and bare settings; the default is returned when everything
misses; and with no default the exact error messages (with and without
`allow_bare`) are produced. -/
theorem C1_setting_resolution_precedence_witness :
    get_anymail_setting
        ⟨some [("MAILGUN_API_KEY", PyObj.int 1)],
         [("ANYMAIL_MAILGUN_API_KEY", PyObj.int 2),
          ("MAILGUN_API_KEY", PyObj.int 3)]⟩
        "api_key" none (some "mailgun") (some [("api_key", PyObj.int 9)]) true =
      (.ok (PyObj.int 9), some []) ∧
    get_anymail_setting ⟨none, []⟩ "api_key" (some (PyObj.int 5))
        (some "mailgun") none true = (.ok (PyObj.int 5), none) ∧
    get_anymail_setting ⟨none, []⟩ "api_key" none (some "mailgun") none true =
      (.configError
        "You must set ANYMAIL_MAILGUN_API_KEY or ANYMAIL = \x7b\x27MAILGUN_API_KEY\x27: ...\x7d or MAILGUN_API_KEY in your Django settings",
       none) ∧
    get_anymail_setting ⟨none, []⟩ "api_key" none (some "mailgun") none false =
      (.configError
        "You must set ANYMAIL_MAILGUN_API_KEY or ANYMAIL = \x7b\x27MAILGUN_API_KEY\x27: ...\x7d in your Django settings",
       none) := by
  refine ⟨?_, ?_, ?_, ?_⟩
  · have h := C1_setting_resolution_precedence.1
      ⟨some [("MAILGUN_API_KEY", PyObj.int 1)],
       [("ANYMAIL_MAILGUN_API_KEY", PyObj.int 2),
        ("MAILGUN_API_KEY", PyObj.int 3)]⟩
      "api_key" none (some "mailgun") [("api_key", PyObj.int 9)] true
      (PyObj.int 9) (by decide) (by decide) rfl
    exact h.trans (by rfl)
  · exact C1_setting_resolution_precedence.2.1 ⟨none, []⟩ "api_key"
      (some "mailgun") none true (PyObj.int 5) rfl rfl rfl (fun _ => rfl)
  · have h := C1_setting_resolution_precedence.2.2 ⟨none, []⟩ "api_key"
      (some "mailgun") none true rfl rfl rfl (fun _ => rfl)
    exact h.trans (by rfl)
  · have h := C1_setting_resolution_precedence.2.2 ⟨none, []⟩ "api_key"
      (some "mailgun") none false rfl rfl rfl (fun h => by cases h)
    exact h.trans (by rfl)

/-- Claim C2: for `username` / `password`, a kwargs value of `None` is
treated as not found — the call resolves exactly as the settings sources
dictate, so a namespaced settings-mapping entry (or, when that misses, a
flat attribute) is returned instead of the `None`. -/
theorem C2_null_credentials_fall_through :
    ∀ (stg : DjangoSettings) (name : String) (default : Option PyObj)
      (esp_name : Option String) (kw : List (String × PyObj))
      (allow_bare : Bool),
      (name = "username" ∨ name = "password") →
      assocLookup kw name = some PyObj.pynone →
      get_anymail_setting stg name default esp_name (some kw) allow_bare =
        (resolveSettings stg name default esp_name allow_bare,
         some (assocRemove kw name)) ∧
      (∀ v : PyObj,
        stg.anymail.bind (fun m => assocLookup m (settingName name esp_name)) = some v →
        (get_anymail_setting stg name default esp_name (some kw) allow_bare).1 =
          .ok v) ∧
      (∀ v : PyObj,
        stg.anymail.bind (fun m => assocLookup m (settingName name esp_name)) = none →
        assocLookup stg.attrs ("ANYMAIL_" ++ settingName name esp_name) = some v →
        (get_anymail_setting stg name default esp_name (some kw) allow_bare).1 =
          .ok v) := by
  intro stg name default esp_name kw allow_bare hname hlk
  have E : get_anymail_setting stg name default esp_name (some kw) allow_bare =
      (resolveSettings stg name default esp_name allow_bare,
       some (assocRemove kw name)) := by
    rcases hname with rfl | rfl <;> simp [get_anymail_setting, popKwargs, hlk]
  refine ⟨E, ?_, ?_⟩
  · intro v hv
    rw [E]
    simp [resolveSettings, hv]
  · intro v hA hB
    rw [E]
    simp [resolveSettings, hA, hB]

/-- Witness for C2: a `None` username kwargs is skipped in favour of the
`ANYMAIL` mapping entry, and — when the mapping misses — of the flat
attribute. -/
theorem C2_null_credentials_fall_through_witness :
    (get_anymail_setting ⟨some [("USERNAME", PyObj.str "u")], []⟩ "username"
        none none (some [("username", PyObj.pynone)]) false).1 =
      .ok (PyObj.str "u") ∧
    (get_anymail_setting
        ⟨none, [("ANYMAIL_SENDGRID_PASSWORD", PyObj.str "p")]⟩ "password"
        none (some "sendgrid") (some [("password", PyObj.pynone)]) false).1 =
      .ok (PyObj.str "p") := by
  constructor
  · exact (C2_null_credentials_fall_through
      ⟨some [("USERNAME", PyObj.str "u")], []⟩ "username" none none
      [("username", PyObj.pynone)] false (Or.inl rfl) rfl).2.1
      (PyObj.str "u") rfl
  · exact (C2_null_credentials_fall_through
      ⟨none, [("ANYMAIL_SENDGRID_PASSWORD", PyObj.str "p")]⟩ "password" none
      (some "sendgrid") [("password", PyObj.pynone)] false (Or.inr rfl)
      rfl).2.2 (PyObj.str "p") rfl rfl

/-- Counterexample to claim C3 as stated: with `kwargs = {username: None}`
the resolution falls through to the settings sources (the result is the
settings value, not the kwargs `None`), yet the `username` key has been
removed from kwargs — an outcome the claim says leaves kwargs unchanged. -/
theorem C3_counterexample_null_username_pops_key :
    get_anymail_setting ⟨some [("USERNAME", PyObj.int 7)], []⟩ "username" none
        none (some [("username", PyObj.pynone)]) false =
      (.ok (PyObj.int 7), some []) ∧
    some ([] : List (String × PyObj)) ≠ some [("username", PyObj.pynone)] :=
  ⟨rfl, by decide⟩

/-- Claim C3 as amended: `get_anymail_setting` removes the `name` key from
kwargs exactly when kwargs is provided and contains the key — including
the case of a `None` username/password value being discarded while
resolution falls through — and leaves kwargs unchanged in every other
outcome (missing key, absent kwargs, default, or configuration error). -/
theorem C3_amended_kwargs_key_removed_iff_present :
    (∀ (stg : DjangoSettings) (name : String) (default : Option PyObj)
       (esp_name : Option String) (kw : List (String × PyObj))
       (allow_bare : Bool) (v : PyObj),
       assocLookup kw name = some v →
       (get_anymail_setting stg name default esp_name (some kw) allow_bare).2 =
         some (assocRemove kw name)) ∧
    (∀ (stg : DjangoSettings) (name : String) (default : Option PyObj)
       (esp_name : Option String) (kwargs : Option (List (String × PyObj)))
       (allow_bare : Bool),
       popKwargs kwargs name = none →
       (get_anymail_setting stg name default esp_name kwargs allow_bare).2 =
         kwargs) := by
  constructor
  · intro stg name default esp_name kw allow_bare v hlk
    simp only [get_anymail_setting, popKwargs, hlk]
    by_cases h1 : name = "username" ∨ name = "password" <;>
      by_cases h2 : v = PyObj.pynone <;> simp [h1, h2]
  · intro stg name default esp_name kwargs allow_bare hpop
    simp [get_anymail_setting, hpop]

/-- Witness for the amended C3: the key is removed both when the kwargs
value is returned and when a `None` username falls through; kwargs is
untouched when the key is absent. -/
theorem C3_amended_kwargs_key_removed_iff_present_witness :
    (get_anymail_setting ⟨none, []⟩ "api_key" (some (PyObj.int 5)) none
        (some [("api_key", PyObj.int 9), ("other", PyObj.int 0)]) false).2 =
      some [("other", PyObj.int 0)] ∧
    (get_anymail_setting ⟨some [("USERNAME", PyObj.int 7)], []⟩ "username"
        none none (some [("username", PyObj.pynone)]) false).2 = some [] ∧
    (get_anymail_setting ⟨none, []⟩ "api_key" (some (PyObj.int 5)) none
        (some [("other", PyObj.int 0)]) false).2 =
      some [("other", PyObj.int 0)] := by
  refine ⟨?_, ?_, ?_⟩
  · have h := C3_amended_kwargs_key_removed_iff_present.1 ⟨none, []⟩ "api_key"
      (some (PyObj.int 5)) none [("api_key", PyObj.int 9), ("other", PyObj.int 0)]
      false (PyObj.int 9) rfl
    exact h.trans (by rfl)
  · have h := C3_amended_kwargs_key_removed_iff_present.1
      ⟨some [("USERNAME", PyObj.int 7)], []⟩ "username" none none
      [("username", PyObj.pynone)] false PyObj.pynone rfl
    exact h.trans (by rfl)
  · exact C3_amended_kwargs_key_removed_iff_present.2 ⟨none, []⟩ "api_key"
      (some (PyObj.int 5)) none (some [("other", PyObj.int 0)]) false rfl

lemma unquoteChars_angle (inner : List Char) :
    unquoteChars ('<' :: inner ++ ['>']) = inner := by
  have hhead : ('<' :: inner ++ ['>']).head? = some '<' := rfl
  have hlast : ('<' :: inner ++ ['>']).getLast? = some '>' := by
    rw [show ('<' :: inner ++ ['>']) = ('<' :: inner) ++ ['>'] by simp]
    exact List.getLast?_concat _
  have hnq : ¬(('<' :: inner ++ ['>']).head? = some (Char.ofNat 34) ∧
      ('<' :: inner ++ ['>']).getLast? = some (Char.ofNat 34)) := by
    intro hc
    rw [hhead] at hc
    exact absurd hc.1 (by decide)
  unfold unquoteChars
  rw [if_pos (by simp), if_neg hnq, if_pos ⟨hhead, hlast⟩]
  show (inner ++ ['>']).dropLast = inner
  exact List.dropLast_concat

/-- Claim C9: an attachment built from a MIME part whose
content-disposition token is `inline` has `inline = true`, `content_id`
equal to the raw Content-ID header (angle brackets included) and `cid`
equal to that header with the brackets stripped; with no Content-ID
header, `content_id` is `None` and `cid` the empty string; an attachment
built from a `(name, content, mimetype)` triple has `inline = false`,
`content_id = None` and empty `cid`. -/
theorem C9_attachment_inline_fields :
    (∀ (guess : String → Option String) (enc : String) (part : MimePart)
       (c : String) (inner : List Char),
       get_content_disposition part = some "inline" →
       headerGet part.headers "Content-ID" = some c →
       c.data = '<' :: inner ++ ['>'] →
       (Attachment.make guess enc (.mimePart part)).inline = true ∧
       (Attachment.make guess enc (.mimePart part)).content_id = some c ∧
       (Attachment.make guess enc (.mimePart part)).cid = String.mk inner) ∧
    (∀ (guess : String → Option String) (enc : String) (part : MimePart),
       get_content_disposition part = some "inline" →
       headerGet part.headers "Content-ID" = none →
       (Attachment.make guess enc (.mimePart part)).inline = true ∧
       (Attachment.make guess enc (.mimePart part)).content_id = none ∧
       (Attachment.make guess enc (.mimePart part)).cid = "") ∧
    (∀ (guess : String → Option String) (enc : String) (nm : Option String)
       (ct : ContentData) (mto : Option String),
       (Attachment.make guess enc (.triple nm ct mto)).inline = false ∧
       (Attachment.make guess enc (.triple nm ct mto)).content_id = none ∧
       (Attachment.make guess enc (.triple nm ct mto)).cid = "") := by
  refine ⟨?_, ?_, ?_⟩
  · intro guess enc part c inner hdisp hcid hdata
    refine ⟨?_, ?_, ?_⟩ <;> simp [Attachment.make, hdisp, hcid]
    rw [unquote, hdata]
    exact congrArg String.mk (unquoteChars_angle inner)
  · intro guess enc part hdisp hcid
    refine ⟨?_, ?_, ?_⟩ <;> simp [Attachment.make, hdisp, hcid]
  · intro guess enc nm ct mto
    exact ⟨rfl, rfl, rfl⟩

/-- Witness for C9 at a concrete MIME part with
`Content-Disposition: inline` and `Content-ID: <abc>` (and the same part
without a Content-ID), plus a concrete triple. -/
theorem C9_attachment_inline_fields_witness :
    (Attachment.make (fun _ => none) "utf-8"
        (.mimePart ⟨some "x.png", [1], "image/png",
          [("Content-Disposition", "inline"), ("Content-ID", "<abc>")]⟩)).inline
        = true ∧
    (Attachment.make (fun _ => none) "utf-8"
        (.mimePart ⟨some "x.png", [1], "image/png",
          [("Content-Disposition", "inline"), ("Content-ID", "<abc>")]⟩)).content_id
        = some "<abc>" ∧
    (Attachment.make (fun _ => none) "utf-8"
        (.mimePart ⟨some "x.png", [1], "image/png",
          [("Content-Disposition", "inline"), ("Content-ID", "<abc>")]⟩)).cid
        = "abc" ∧
    (Attachment.make (fun _ => none) "utf-8"
        (.mimePart ⟨some "x.png", [1], "image/png",
          [("Content-Disposition", "inline")]⟩)).content_id = none ∧
    (Attachment.make (fun _ => none) "utf-8"
        (.mimePart ⟨some "x.png", [1], "image/png",
          [("Content-Disposition", "inline")]⟩)).cid = "" ∧
    (Attachment.make (fun _ => none) "utf-8"
        (.triple (some "f.txt") (.bytes [1]) none)).inline = false ∧
    (Attachment.make (fun _ => none) "utf-8"
        (.triple (some "f.txt") (.bytes [1]) none)).content_id = none := by
  have h1 := C9_attachment_inline_fields.1 (fun _ => none) "utf-8"
    ⟨some "x.png", [1], "image/png",
     [("Content-Disposition", "inline"), ("Content-ID", "<abc>")]⟩
    "<abc>" ['a', 'b', 'c'] rfl rfl rfl
  have h2 := C9_attachment_inline_fields.2.1 (fun _ => none) "utf-8"
    ⟨some "x.png", [1], "image/png", [("Content-Disposition", "inline")]⟩
    rfl rfl
  have h3 := C9_attachment_inline_fields.2.2 (fun _ => none) "utf-8"
    (some "f.txt") (.bytes [1]) none
  exact ⟨h1.1, h1.2.1, h1.2.2.trans (by rfl), h2.2.1, h2.2.2, h3.1, h3.2.1⟩

lemma preserves_refl (s : Store) : Preserves s s :=
  ⟨Nat.le_refl _, fun _ _ => rfl⟩

lemma preserves_append {s0 s2 : Store} (t : Store) (h : Preserves s0 s2) :
    Preserves s0 (s2 ++ t) := by
  refine ⟨?_, ?_⟩
  · calc s0.length ≤ s2.length := h.1
      _ ≤ (s2 ++ t).length := by simp
  · intro i hi
    rw [List.getElem?_append_left (Nat.lt_of_lt_of_le hi h.1)]
    exact h.2 i hi

lemma preserves_set {s0 s2 : Store} {ra : Ref} (x : PyObj)
    (h : Preserves s0 s2) (hra : s0.length ≤ ra) :
    Preserves s0 (s2.set ra x) := by
  refine ⟨by simpa using h.1, ?_⟩
  intro i hi
  rw [List.getElem?_set_ne (Nat.ne_of_lt (Nat.lt_of_lt_of_le hi hra)).symm]
  exact h.2 i hi

lemma storeGet_of_preserves {s0 s2 : Store} (h : Preserves s0 s2) {r : Ref}
    (hr : r < s0.length) : storeGet s2 r = storeGet s0 r := by
  unfold storeGet
  rw [h.2 r hr]

lemma accok_none {s0 s2 : Store} : AccOk s0 s2 none :=
  fun _ _ h _ => Option.noConfusion h

lemma accok_fresh {s0 s2 : Store} (hp : s0.length ≤ s2.length) (t : Store) :
    AccOk s0 (s2 ++ t) (some s2.length) := by
  intro ra d h _
  injection h with h
  subst h
  exact hp

lemma combineStep_preserves {s0 s1 : Store} {acc : Option Ref}
    {st2 : Store × Option Ref} {r : Ref}
    (hp : Preserves s0 s1) (ha : AccOk s0 s1 acc)
    (hstep : combineStep (s1, acc) r = .ok st2) :
    Preserves s0 st2.1 ∧ AccOk s0 st2.1 st2.2 := by
  cases hv : storeGet s1 r with
  | pynone =>
    simp only [combineStep, hv] at hstep
    injection hstep with h
    subst h
    exact ⟨hp, accok_none⟩
  | unset =>
    simp only [combineStep, hv] at hstep
    injection hstep with h
    subst h
    exact ⟨hp, ha⟩
  | int n =>
    cases acc with
    | none =>
      simp only [combineStep, hv] at hstep
      injection hstep with h
      subst h
      refine ⟨hp, ?_⟩
      intro ra d hacc hd
      injection hacc with e
      subst e
      rw [hv] at hd
      cases hd
    | some ra =>
      cases hra : storeGet s1 ra with
      | int m =>
        simp only [combineStep, hv, hra] at hstep
        injection hstep with h
        subst h
        exact ⟨preserves_append _ hp, accok_fresh hp.1 _⟩
      | pynone => simp [combineStep, hv, hra] at hstep
      | unset => simp [combineStep, hv, hra] at hstep
      | str a => simp [combineStep, hv, hra] at hstep
      | dict d => simp [combineStep, hv, hra] at hstep
      | list l => simp [combineStep, hv, hra] at hstep
  | str a =>
    cases acc with
    | none =>
      simp only [combineStep, hv] at hstep
      injection hstep with h
      subst h
      refine ⟨hp, ?_⟩
      intro ra d hacc hd
      injection hacc with e
      subst e
      rw [hv] at hd
      cases hd
    | some ra =>
      cases hra : storeGet s1 ra with
      | str b =>
        simp only [combineStep, hv, hra] at hstep
        injection hstep with h
        subst h
        exact ⟨preserves_append _ hp, accok_fresh hp.1 _⟩
      | pynone => simp [combineStep, hv, hra] at hstep
      | unset => simp [combineStep, hv, hra] at hstep
      | int m => simp [combineStep, hv, hra] at hstep
      | dict d => simp [combineStep, hv, hra] at hstep
      | list l => simp [combineStep, hv, hra] at hstep
  | dict d =>
    cases acc with
    | none =>
      simp only [combineStep, hv] at hstep
      injection hstep with h
      subst h
      exact ⟨preserves_append _ hp, accok_fresh hp.1 _⟩
    | some ra =>
      cases hra : storeGet s1 ra with
      | dict d0 =>
        simp only [combineStep, hv, hra] at hstep
        injection hstep with h
        subst h
        have hge : s0.length ≤ ra := ha ra d0 rfl hra
        refine ⟨preserves_set _ hp hge, ?_⟩
        intro ra2 d2 hacc _
        injection hacc with e
        subst e
        exact hge
      | pynone => simp [combineStep, hv, hra] at hstep
      | unset => simp [combineStep, hv, hra] at hstep
      | int m => simp [combineStep, hv, hra] at hstep
      | str b => simp [combineStep, hv, hra] at hstep
      | list l => simp [combineStep, hv, hra] at hstep
  | list l =>
    cases acc with
    | none =>
      simp only [combineStep, hv] at hstep
      injection hstep with h
      subst h
      exact ⟨preserves_append _ hp, accok_fresh hp.1 _⟩
    | some ra =>
      cases hra : storeGet s1 ra with
      | list l0 =>
        simp only [combineStep, hv, hra] at hstep
        injection hstep with h
        subst h
        exact ⟨preserves_append _ hp, accok_fresh hp.1 _⟩
      | pynone => simp [combineStep, hv, hra] at hstep
      | unset => simp [combineStep, hv, hra] at hstep
      | int m => simp [combineStep, hv, hra] at hstep
      | str b => simp [combineStep, hv, hra] at hstep
      | dict d0 => simp [combineStep, hv, hra] at hstep

lemma combineGo_preserves {s0 : Store} :
    ∀ (args : List Ref) (s1 : Store) (acc : Option Ref),
      Preserves s0 s1 → AccOk s0 s1 acc →
      Preserves s0 (combineGo (s1, acc) args).1 := by
  intro args
  induction args with
  | nil => intro s1 acc hp _; exact hp
  | cons r rest ih =>
    intro s1 acc hp ha
    show Preserves s0 (match combineStep (s1, acc) r with
      | .ok st2 => combineGo st2 rest
      | .error e => ((s1, acc).1, .error e)).1
    cases hstep : combineStep (s1, acc) r with
    | ok st2 =>
      have h2 := combineStep_preserves hp ha hstep
      have h3 := ih st2.1 st2.2 h2.1 h2.2
      simpa using h3
    | error e => exact hp

/-- Claim C10: `combine` never mutates its arguments — every heap cell
that existed before the call (in particular each argument object) holds
the same value after the call.  `last` and `getfirst` are embedded as
read-only functions (their source performs no mutating operation), so the
only caller-visible mutation in the module is the kwargs pop of
`get_anymail_setting`. -/
theorem C10_combine_preserves_arguments :
    ∀ (s : Store) (args : List Ref) (i : Nat),
      i < s.length → ((combine s args).1)[i]? = s[i]? := by
  intro s args i hi
  exact (combineGo_preserves args s none (preserves_refl s) accok_none).2 i hi

/-- Witness for C10: after `combine(a, b)` on concrete dicts, both
argument cells still hold their original dicts. -/
theorem C10_combine_preserves_arguments_witness :
    ((combine [PyObj.dict [("a", 1)], PyObj.dict [("b", 2)]] [0, 1]).1)[0]? =
      some (PyObj.dict [("a", 1)]) ∧
    ((combine [PyObj.dict [("a", 1)], PyObj.dict [("b", 2)]] [0, 1]).1)[1]? =
      some (PyObj.dict [("b", 2)]) := by
  constructor
  · have h := C10_combine_preserves_arguments
      [PyObj.dict [("a", 1)], PyObj.dict [("b", 2)]] [0, 1] 0 (by decide)
    exact h.trans (by rfl)
  · have h := C10_combine_preserves_arguments
      [PyObj.dict [("a", 1)], PyObj.dict [("b", 2)]] [0, 1] 1 (by decide)
    exact h.trans (by rfl)

lemma combineGo_scalar {s0 : Store} :
    ∀ (args : List Ref) (s1 : Store) (acc : Option Ref) (av : Option Int),
      Preserves s0 s1 →
      (∀ r ∈ args, r < s0.length ∧ isScalarObj (storeGet s0 r) = true) →
      AccRel s1 acc av →
      ∃ s2 accR, combineGo (s1, acc) args = (s2, .ok accR) ∧
        accR.map (fun rr => storeGet s2 rr) =
          (List.foldl scombineStep av
            (args.map (fun r => storeGet s0 r))).map PyObj.int := by
  intro args
  induction args with
  | nil =>
    intro s1 acc av hp _ hrel
    refine ⟨s1, acc, rfl, ?_⟩
    cases acc with
    | none =>
      cases av with
      | none => rfl
      | some m => exact absurd hrel (by simp [AccRel])
    | some ra =>
      cases av with
      | none => exact absurd hrel (by simp [AccRel])
      | some m =>
        have hrel2 : storeGet s1 ra = PyObj.int m := hrel
        simp [hrel2]
  | cons r rest ih =>
    intro s1 acc av hp hargs hrel
    obtain ⟨hrlt, hrs⟩ := hargs r (by simp)
    have hrest : ∀ x ∈ rest, x < s0.length ∧ isScalarObj (storeGet s0 x) = true :=
      fun x hx => hargs x (by simp [hx])
    have hget : storeGet s1 r = storeGet s0 r := storeGet_of_preserves hp hrlt
    cases hv : storeGet s0 r with
    | pynone =>
      have hstep : combineStep (s1, acc) r = .ok (s1, none) := by
        simp [combineStep, hget, hv]
      have hgo : combineGo (s1, acc) (r :: rest) = combineGo (s1, none) rest := by
        simp [combineGo, hstep]
      rw [hgo]
      obtain ⟨s2, accR, h1, h2⟩ := ih s1 none none hp hrest trivial
      exact ⟨s2, accR, h1, by simpa [hv] using h2⟩
    | unset =>
      have hstep : combineStep (s1, acc) r = .ok (s1, acc) := by
        simp [combineStep, hget, hv]
      have hgo : combineGo (s1, acc) (r :: rest) = combineGo (s1, acc) rest := by
        simp [combineGo, hstep]
      rw [hgo]
      obtain ⟨s2, accR, h1, h2⟩ := ih s1 acc av hp hrest hrel
      exact ⟨s2, accR, h1, by simpa [hv] using h2⟩
    | int n =>
      cases acc with
      | none =>
        have hav : av = none := by
          cases av with
          | none => rfl
          | some m => exact absurd hrel (by simp [AccRel])
        subst hav
        have hstep : combineStep (s1, none) r = .ok (s1, some r) := by
          simp [combineStep, hget, hv]
        have hgo : combineGo (s1, none) (r :: rest) = combineGo (s1, some r) rest := by
          simp [combineGo, hstep]
        rw [hgo]
        have hrel2 : AccRel s1 (some r) (some n) := by
          show storeGet s1 r = PyObj.int n
          exact hget.trans hv
        obtain ⟨s2, accR, h1, h2⟩ := ih s1 (some r) (some n) hp hrest hrel2
        exact ⟨s2, accR, h1, by simpa [hv] using h2⟩
      | some ra =>
        cases av with
        | none => exact absurd hrel (by simp [AccRel])
        | some m =>
          have hra : storeGet s1 ra = PyObj.int m := hrel
          have hstep : combineStep (s1, some ra) r =
              .ok (s1 ++ [PyObj.int (m + n)], some s1.length) := by
            simp [combineStep, hget, hv, hra]
          have hgo : combineGo (s1, some ra) (r :: rest) =
              combineGo (s1 ++ [PyObj.int (m + n)], some s1.length) rest := by
            simp [combineGo, hstep]
          rw [hgo]
          have hrel2 : AccRel (s1 ++ [PyObj.int (m + n)]) (some s1.length)
              (some (m + n)) := by
            show storeGet (s1 ++ [PyObj.int (m + n)]) s1.length = PyObj.int (m + n)
            exact storeGet_concat_length s1 _
          obtain ⟨s2, accR, h1, h2⟩ :=
            ih (s1 ++ [PyObj.int (m + n)]) (some s1.length) (some (m + n))
              (preserves_append _ hp) hrest hrel2
          exact ⟨s2, accR, h1, by simpa [hv, scombineStep] using h2⟩
    | str a => simp [isScalarObj, hv] at hrs
    | dict d => simp [isScalarObj, hv] at hrs
    | list l => simp [isScalarObj, hv] at hrs

lemma combineValue_scalar (s : Store) (args : List Ref)
    (hargs : ∀ r ∈ args, r < s.length ∧ isScalarObj (storeGet s r) = true) :
    combineValue s args =
      .ok ((scombine (args.map (fun r => storeGet s r))).map PyObj.int) := by
  obtain ⟨s2, accR, hgo, hval⟩ :=
    combineGo_scalar args s none none (preserves_refl s) hargs trivial
  unfold combineValue combine
  rw [hgo]
  cases accR with
  | none => exact congrArg Except.ok hval
  | some rr => exact congrArg Except.ok hval

lemma lastAux_map_storeGet (s : Store) :
    ∀ l : List Ref, (lastAux s l).map (fun r => storeGet s r) =
      slastAux (l.map (fun r => storeGet s r)) := by
  intro l
  induction l with
  | nil => rfl
  | cons r rest ih =>
    cases hv : storeGet s r with
    | pynone => simp [lastAux, slastAux, hv]
    | unset => simp [lastAux, slastAux, hv, ih]
    | int n => simp [lastAux, slastAux, hv]
    | str a => simp [lastAux, slastAux, hv]
    | dict d => simp [lastAux, slastAux, hv]
    | list l2 => simp [lastAux, slastAux, hv]

lemma last_map_storeGet (s : Store) (args : List Ref) :
    (last s args).map (fun r => storeGet s r) =
      slast (args.map (fun r => storeGet s r)) := by
  unfold last slast
  rw [lastAux_map_storeGet, List.map_reverse]

lemma foldl_scombineStep_unset {a : Option Int} :
    ∀ vs, allUnsetL vs → List.foldl scombineStep a vs = a := by
  intro vs
  induction vs with
  | nil => intro _; rfl
  | cons v t ih =>
    intro h
    have hv : v = PyObj.unset := h v (by simp)
    subst hv
    exact ih (fun z hz => h z (by simp [hz]))

lemma slastAux_append_unset :
    ∀ vs, allUnsetL vs → ∀ l, slastAux (vs ++ l) = slastAux l := by
  intro vs
  induction vs with
  | nil => intro _ l; rfl
  | cons v t ih =>
    intro h l
    have hv : v = PyObj.unset := h v (by simp)
    subst hv
    simp only [List.cons_append, slastAux]
    exact ih (fun z hz => h z (by simp [hz])) l

lemma scombine_oneIntSeg_unset {vs : List PyObj} (h : allUnsetL vs) :
    scombine vs = none :=
  foldl_scombineStep_unset vs h

lemma slast_all_unset {vs : List PyObj} (h : allUnsetL vs) :
    slast vs = none := by
  unfold slast
  have h2 : allUnsetL vs.reverse := fun v hv => h v (List.mem_reverse.mp hv)
  have := slastAux_append_unset vs.reverse h2 []
  simpa using this

lemma scombine_one_int {u1 u2 : List PyObj} {k : Int}
    (h1 : allUnsetL u1) (h2 : allUnsetL u2) :
    scombine (u1 ++ PyObj.int k :: u2) = some k := by
  unfold scombine
  rw [List.foldl_append, foldl_scombineStep_unset u1 h1, List.foldl_cons]
  exact foldl_scombineStep_unset u2 h2

lemma slast_one_int {u1 u2 : List PyObj} {k : Int}
    (_h1 : allUnsetL u1) (h2 : allUnsetL u2) :
    slast (u1 ++ PyObj.int k :: u2) = some (PyObj.int k) := by
  unfold slast
  rw [List.reverse_append, List.reverse_cons, List.append_assoc]
  rw [slastAux_append_unset u2.reverse
    (fun v hv => h2 v (List.mem_reverse.mp hv))]
  rfl

lemma scalarAgree_combine_eq_last (vs : List PyObj) (h : scalarAgree vs) :
    (scombine vs).map PyObj.int = slast vs := by
  rcases h with h | ⟨p, q, rfl, hq⟩
  · rcases h with h | ⟨u1, k, u2, rfl, hu1, hu2⟩
    · rw [scombine_oneIntSeg_unset h, slast_all_unset h]
      rfl
    · rw [scombine_one_int hu1 hu2, slast_one_int hu1 hu2]
      rfl
  · have hs : scombine (p ++ PyObj.pynone :: q) = scombine q := by
      unfold scombine
      rw [List.foldl_append, List.foldl_cons]
      rfl
    have hrev : (p ++ PyObj.pynone :: q).reverse =
        q.reverse ++ PyObj.pynone :: p.reverse := by
      simp
    rcases hq with hq | ⟨u1, k, u2, rfl, hu1, hu2⟩
    · rw [hs, scombine_oneIntSeg_unset hq]
      unfold slast
      rw [hrev, slastAux_append_unset q.reverse
        (fun v hv => hq v (List.mem_reverse.mp hv))]
      rfl
    · rw [hs, scombine_one_int hu1 hu2]
      unfold slast
      rw [hrev]
      rw [show (u1 ++ PyObj.int k :: u2).reverse =
        u2.reverse ++ PyObj.int k :: u1.reverse by simp]
      rw [List.append_assoc]
      rw [slastAux_append_unset u2.reverse
        (fun v hv => hu2 v (List.mem_reverse.mp hv))]
      rfl

/-- Counterexample to claim C7 as stated: on the scalar arguments
`(1, 2)`, `combine` returns `3` (Python `+` adds the integers) while
`last` returns `2`, so `combine` does not agree with `last` on scalar
argument lists. -/
theorem C7_counterexample_combine_adds_scalars :
    combineValue [PyObj.int 1, PyObj.int 2] [0, 1] = .ok (some (PyObj.int 3)) ∧
    (last [PyObj.int 1, PyObj.int 2] [0, 1]).map
        (fun r => storeGet [PyObj.int 1, PyObj.int 2] r) =
      some (PyObj.int 2) ∧
    (PyObj.int 3 : PyObj) ≠ PyObj.int 2 :=
  ⟨rfl, rfl, by decide⟩

/-- Claim C7 as amended: `last` agrees with `combine` on scalar argument
lists in which at most one real (non-`UNSET`, non-`None`) value follows
the last `None` — or occurs at all, when there is no `None`.  (With two or
more real scalars in that position `combine` folds them with `+`, as the
counterexample shows.) -/
theorem C7_amended_last_eq_combine_on_scalars :
    ∀ (s : Store) (args : List Ref),
      (∀ r ∈ args, r < s.length ∧ isScalarObj (storeGet s r) = true) →
      scalarAgree (args.map (fun r => storeGet s r)) →
      combineValue s args =
        .ok ((last s args).map (fun r => storeGet s r)) := by
  intro s args hargs hagree
  rw [combineValue_scalar s args hargs,
    scalarAgree_combine_eq_last _ hagree, last_map_storeGet]

/-- Witness for the amended C7 at `(1, None, 2, UNSET)`: both `combine`
and `last` return `2`. -/
theorem C7_amended_last_eq_combine_on_scalars_witness :
    combineValue [PyObj.int 1, PyObj.pynone, PyObj.int 2, PyObj.unset]
        [0, 1, 2, 3] =
      .ok ((last [PyObj.int 1, PyObj.pynone, PyObj.int 2, PyObj.unset]
        [0, 1, 2, 3]).map
          (fun r => storeGet [PyObj.int 1, PyObj.pynone, PyObj.int 2, PyObj.unset] r)) :=
  C7_amended_last_eq_combine_on_scalars
    [PyObj.int 1, PyObj.pynone, PyObj.int 2, PyObj.unset] [0, 1, 2, 3]
    (by decide)
    (Or.inr ⟨[PyObj.int 1], [PyObj.int 2, PyObj.unset], rfl,
      Or.inr ⟨[], 2, [PyObj.unset], rfl, by simp [allUnsetL], by simp [allUnsetL]⟩⟩)

end Anymail
